import Mathlib

/-!
Verification development for the emaillib library (emaillib/emaillib.py).

The embedding works over lists of characters.  Strings coming from Python are
modelled as values of type List Char; Python None and the string-or-list
polymorphism of the address fields are modelled with explicit sum types.
External collaborators (the smtplib network calls, the filesystem, the clock)
are modelled as oracle parameters threaded through the functions that use
them, so every definition is executable.
-/

namespace Emaillib

/-- Decidable equality for Except results, so that concrete runs of the
fallible operations can be checked by evaluation. -/
instance {ε α : Type} [DecidableEq ε] [DecidableEq α] : DecidableEq (Except ε α) :=
  fun x y =>
    match x, y with
    | .error a, .error b =>
      match decEq a b with
      | isTrue h => isTrue (h ▸ rfl)
      | isFalse h => isFalse (fun hh => h (Except.error.inj hh))
    | .ok a, .ok b =>
      match decEq a b with
      | isTrue h => isTrue (h ▸ rfl)
      | isFalse h => isFalse (fun hh => h (Except.ok.inj hh))
    | .error _, .ok _ => isFalse (fun hh => Except.noConfusion hh)
    | .ok _, .error _ => isFalse (fun hh => Except.noConfusion hh)

/-! ## Character classes and low level string helpers -/

/-- Linear whitespace characters (the LWS set of email._parseaddr). -/
def isLws (c : Char) : Bool := c = ' ' || c = '\t'

/-- Carriage return / line feed characters (the CR set of email._parseaddr). -/
def isCrlf (c : Char) : Bool := c = '\n' || c = '\r'

/-- Characters removed by Python str.strip() with no argument. -/
def isPyWs (c : Char) : Bool :=
  c = ' ' || c = '\t' || c = '\n' || c = '\r' || c = '\x0b' || c = '\x0c'

/-- The specials character set of email._parseaddr.AddrlistClass. -/
def specialsChars : List Char :=
  ['(', ')', '<', '>', '@', ',', ':', ';', '.', '\"', '[', ']']

/-- Atom-terminating characters: specials plus LWS plus CR, as in
email._parseaddr (atomends). -/
def isAtomEnd (c : Char) : Bool := c ∈ specialsChars || isLws c || isCrlf c

/-- Phrase-terminating characters: atomends with the dot removed, as in
email._parseaddr (phraseends). -/
def isPhraseEnd (c : Char) : Bool :=
  (decide (c ∈ specialsChars) && c ≠ '.') || isLws c || isCrlf c

/-- Python str.strip(): drop leading and trailing whitespace. -/
def pyStrip (s : List Char) : List Char :=
  ((s.dropWhile isPyWs).reverse.dropWhile isPyWs).reverse

/-- Python str.split on a comma: always returns at least one piece, and keeps
empty pieces between consecutive commas. -/
def splitComma : List Char → List (List Char)
  | [] => [[]]
  | c :: rest =>
    if c = ',' then [] :: splitComma rest
    else
      match splitComma rest with
      | h :: t => (c :: h) :: t
      | [] => [[c]]

/-- email.utils.COMMASPACE.join. -/
def commaSpaceJoin : List (List Char) → List Char
  | [] => []
  | [x] => x
  | x :: xs => x ++ (',' :: ' ' :: commaSpaceJoin xs)

/-- Python str.lower restricted to the ASCII case mapping. -/
def pyLower (s : List Char) : List Char := s.map Char.toLower

/-- Whether the first list is an initial segment of the second. -/
def startsWithSeg : List Char → List Char → Bool
  | [], _ => true
  | _ :: _, [] => false
  | a :: as, b :: bs => a = b && startsWithSeg as bs

/-- Whether the first list occurs as a contiguous segment of the second. -/
def containsSeg (needle : List Char) : List Char → Bool
  | [] => startsWithSeg needle []
  | c :: rest => startsWithSeg needle (c :: rest) || containsSeg needle rest

/-! ## Model of email.utils.parseaddr

The library validates addresses by first running them through the standard
library function email.utils.parseaddr and then matching the resulting bare
address against a regular expression.  parseaddr is an external collaborator
of the library; the following definitions model the address component of its
result, faithfully for the fragment of inputs actually exercised here:
fields containing no double quote, backslash, parenthesis, square bracket,
angle bracket, colon or semicolon (i.e. no quoted strings, comments, domain
literals, route addresses or address groups). -/

/-- Model of AddrlistClass.gotonext without comment handling: skip linear
whitespace and CR/LF, returning the skipped LWS characters and the rest. -/
def gotonext : List Char → List Char × List Char
  | [] => ([], [])
  | c :: rest =>
    if isLws c then
      let (w, r) := gotonext rest
      (c :: w, r)
    else if isCrlf c then gotonext rest
    else ([], c :: rest)

/-- Model of AddrlistClass.getdomain.  Atoms and dots are collected
character by character; a second '@' aborts the whole domain (bpo-34155),
signalled by the none result. -/
def getdomain : List Char → Option (List Char) × List Char
  | [] => (some [], [])
  | c :: rest =>
    if isLws c then getdomain rest
    else if c = '.' then
      match getdomain rest with
      | (some d, r) => (some ('.' :: d), r)
      | (none, r) => (none, r)
    else if c = '@' then (none, c :: rest)
    else if isAtomEnd c then (some [], c :: rest)
    else
      match getdomain rest with
      | (some d, r) => (some (c :: d), r)
      | (none, r) => (none, r)

/-- Model of the local-part loop of AddrlistClass.getaddrspec.  The
accumulator acc holds the joined items so far, pending holds a trailing
whitespace item that is dropped again if the next item is a dot or the loop
breaks at an atom end.  Fuel-based recursion; each loop step consumes at
least one character, so fuel = length of the field + 1 always suffices. -/
def getlocalF : Nat → List Char → List Char → List Char → List Char × List Char
  | 0, acc, pending, f => (acc ++ pending, f)
  | fuel + 1, acc, pending, f =>
    match f with
    | [] => (acc ++ pending, [])
    | c :: rest =>
      if c = '.' then
        let (_, r) := gotonext rest
        getlocalF fuel (acc ++ ['.']) [] r
      else if isAtomEnd c then (acc, c :: rest)
      else
        let atom := (c :: rest).takeWhile (fun x => !isAtomEnd x)
        let r1 := (c :: rest).dropWhile (fun x => !isAtomEnd x)
        let (ws, r2) := gotonext r1
        getlocalF fuel (acc ++ pending ++ atom) ws r2

/-- Model of AddrlistClass.getaddrspec: parse local part, then on an '@'
parse the domain; an empty or aborted domain yields the empty address. -/
def getaddrspec (f : List Char) : List Char × List Char :=
  let (_, f1) := gotonext f
  let (locPart, f2) := getlocalF (f1.length + 1) [] [] f1
  match f2 with
  | '@' :: r =>
    let (_, r1) := gotonext r
    match getdomain r1 with
    | (some d, r2) => if d = [] then ([], r2) else (locPart ++ '@' :: d, r2)
    | (none, r2) => ([], r2)
  | _ => (locPart, f2)

/-- Model of AddrlistClass.getphraselist without quoted strings and
comments.  Fuel-based recursion as in getlocalF. -/
def getphraselistF : Nat → List Char → List (List Char) × List Char
  | 0, f => ([], f)
  | fuel + 1, f =>
    match f with
    | [] => ([], [])
    | c :: rest =>
      if isLws c || isCrlf c then getphraselistF fuel rest
      else if isPhraseEnd c then ([], c :: rest)
      else
        let atom := (c :: rest).takeWhile (fun x => !isPhraseEnd x)
        let r := (c :: rest).dropWhile (fun x => !isPhraseEnd x)
        let (ps, r2) := getphraselistF fuel r
        (atom :: ps, r2)

/-- Model of AddrlistClass.getaddress on the fragment without groups and
route addresses.  Returns the parsed address (none when the Python code
would record the pair of empty strings) and the rest of the field. -/
def getaddress (f : List Char) : Option (List Char) × List Char :=
  let (_, f1) := gotonext f
  let (plist, f2) := getphraselistF (f1.length + 1) f1
  let (_, f3) := gotonext f2
  let step : Option (List Char) × List Char :=
    match f3 with
    | [] =>
      match plist with
      | [] => (none, [])
      | p :: _ => (some p, [])
    | c :: rest =>
      if c = '.' || c = '@' then
        let (spec, r) := getaddrspec f1
        (some spec, r)
      else
        match plist with
        | p :: _ => (some p, c :: rest)
        | [] => if c ∈ specialsChars then (none, rest) else (none, c :: rest)
  let (res, f4) := step
  let (_, f5) := gotonext f4
  match f5 with
  | ',' :: r => (res, r)
  | f6 => (res, f6)

/-- Model of the address component of email.utils.parseaddr: the first
address parsed from the field, the empty string when parsing fails or the
field is empty. -/
def parseaddrAddr (f : List Char) : List Char :=
  match f with
  | [] => []
  | g =>
    match getaddress g with
    | (some a, _) => a
    | (none, _) => []

/-! ## Model of the validation regular expression

Message._validate_simple matches the parseaddr result against the Python
regular expression of one-or-more non-at characters, an at sign, one-or-more
non-at characters, a dot, and one-or-more non-at characters, using re.match,
which anchors at the start of the string only. -/

/-- Scanner for the part of the pattern after the at sign: succeeds when a
dot is found that is preceded (within the scanned region) by at least one
non-at character and followed by a non-at character; an at sign before such
a dot fails the match.  The seen flag records whether at least one non-at
character has been consumed so far. -/
def domainCheck : List Char → Bool → Bool
  | [], _ => false
  | c :: rest, seen =>
    if c = '@' then false
    else
      ((c = '.' : Bool) && seen
          && (match rest with | d :: _ => decide (d ≠ '@') | [] => false))
        || domainCheck rest true

/-- Model of re.match applied to the validation pattern: an anchored-at-start
(prefix) match of non-at+, at, non-at+, dot, non-at+. -/
def reMatchSimple (s : List Char) : Bool :=
  match s.dropWhile (fun c => c ≠ '@') with
  | '@' :: t => !(s.takeWhile (fun c => c ≠ '@')).isEmpty && domainCheck t false
  | _ => false

/-! ## Errors raised during Message construction -/

/-- The ValueError / OSError conditions Message construction can raise. -/
inductive EmailError
  | invalidEmail (email : List Char)
  | senderEmpty
  | recipientsEmpty
  | invalidContent (content : List Char)
  | attachmentUnreadable (path : List Char)
deriving DecidableEq, Repr

/-- The message text of each error, following the format strings in the
source. -/
def EmailError.message : EmailError → List Char
  | .invalidEmail e => "Invalid email :".data ++ e
  | .senderEmpty => "Sender cannot be empty.".data
  | .recipientsEmpty => "Recipients cannot be empty.".data
  | .invalidContent c =>
      "Invalid content type :".data ++ c ++ ".Allowed [\"text\", \"html\"]".data
  | .attachmentUnreadable p => "Unreadable attachment :".data ++ p

/-! ## Address field inputs and validation -/

/-- Model of Message._validate_simple: run the input through parseaddr and
match the resulting address against the pattern; return the parseaddr
address on success. -/
def validate_simple (email : List Char) : Except EmailError (List Char) :=
  let address := parseaddrAddr email
  if reMatchSimple address then .ok address else .error (.invalidEmail email)

/-- An address field value: either a single string or a list of strings
(Python passes either to the recipient setters). -/
inductive AddrInput
  | str (s : List Char)
  | lst (ls : List (List Char))
deriving DecidableEq, Repr

/-- An optional field value; fnone models Python None. -/
inductive FieldInput
  | fnone
  | fsome (v : AddrInput)
deriving DecidableEq, Repr

/-- Python truthiness of a field value: None, the empty string and the empty
list are falsy. -/
def FieldInput.truthy : FieldInput → Bool
  | .fnone => false
  | .fsome (.str s) => !s.isEmpty
  | .fsome (.lst ls) => !ls.isEmpty

/-- Model of Message._comma_delimited_to_list: a string is split on commas
and each entry stripped of surrounding whitespace; a list is returned
unchanged. -/
def comma_delimited_to_list : AddrInput → List (List Char)
  | .str s => (splitComma s).map pyStrip
  | .lst ls => ls

/-- Model of Message._get_recipients: an untruthy value yields the empty
list, otherwise every normalized entry is validated in order, the first
failure aborting. -/
def get_recipients (v : FieldInput) : Except EmailError (List (List Char)) :=
  match v with
  | .fnone => .ok []
  | .fsome a =>
    if (FieldInput.fsome a).truthy then
      (comma_delimited_to_list a).mapM validate_simple
    else .ok []

/-- Model of the sender setter: an untruthy sender raises, otherwise the
sender is validated. -/
def set_sender (value : List Char) : Except EmailError (List Char) :=
  if value.isEmpty then .error .senderEmpty else validate_simple value

/-- Model of the to setter: an untruthy value raises, otherwise the value is
validated like any recipient field. -/
def set_to (value : FieldInput) : Except EmailError (List (List Char)) :=
  if !value.truthy then .error .recipientsEmpty else get_recipients value

/-- Model of the content setter: the lowercased value must be text or html
and is stored lowercased. -/
def set_content (value : List Char) : Except EmailError (List Char) :=
  if pyLower value = "text".data || pyLower value = "html".data then .ok (pyLower value)
  else .error (.invalidContent value)

/-! ## Attachments -/

/-- A MIME body part: the single text part carrying the body, or an
application part carrying attachment bytes with a filename disposition. -/
inductive MimePart
  | text (body : List Char) (subtype : List Char)
  | application (bytes : List Nat) (filename : List Char)
deriving DecidableEq, Repr

/-- Model of os.path.expanduser for a leading tilde. -/
def expanduser (home : List Char) (p : List Char) : List Char :=
  match p with
  | '~' :: rest =>
    match rest with
    | [] => home
    | '/' :: _ => home ++ rest
    | _ => p
  | _ => p

/-- Model of os.path.basename: the part after the last slash. -/
def basename (p : List Char) : List Char :=
  (p.reverse.takeWhile (fun c => c ≠ '/')).reverse

/-- Model of the attachments setter.  The filesystem is an oracle from paths
to file bytes; an unreadable path aborts construction.  Returns the stored
attachment names and the application parts. -/
def set_attachments (fs : List Char → Option (List Nat)) (home : List Char)
    (entries : FieldInput) :
    Except EmailError (List (List Char) × List MimePart) :=
  let attachments :=
    match entries with
    | .fnone => []
    | .fsome a => if (FieldInput.fsome a).truthy then comma_delimited_to_list a else []
  attachments.foldlM
    (fun (acc : List (List Char) × List MimePart) attachment =>
      match fs (expanduser home attachment) with
      | none => .error (.attachmentUnreadable attachment)
      | some bytes =>
        .ok (acc.1 ++ [attachment],
             acc.2 ++ [.application bytes (basename attachment)]))
    ([], [])

/-! ## The Message entity -/

/-- The validated attribute state of a Message after all setters have run
(the fields the property setters of Message store). -/
structure MessageData where
  sender : List Char
  «to» : List (List Char)
  cc : List (List Char)
  bcc : List (List Char)
  subject : List Char
  body : List Char
  attachments : List (List Char)
  parts : List MimePart
  content : List Char
deriving DecidableEq, Repr

/-- Model of the recipients property: to, then cc, then bcc. -/
def MessageData.recipients (m : MessageData) : List (List Char) :=
  m.«to» ++ m.cc ++ m.bcc

/-- The structural content of the underlying MIMEMultipart message. -/
structure MimeMessage where
  multipartSubtype : List Char
  preamble : List Char
  headers : List (List Char × List Char)
  parts : List MimePart
deriving DecidableEq, Repr

/-- Model of Message._setup_message.  The date is the formatdate result at
construction time, supplied as an oracle input.  The headers are attached in
source order: From, To, Cc when cc is nonempty, Date, Subject. -/
def setup_message (m : MessageData) (date : List Char) : MimeMessage :=
  let bodyPart : MimePart :=
    if m.content = "html".data then .text m.body "html".data
    else .text m.body "plain".data
  let subtype : List Char :=
    if m.content = "html".data then "alternative".data else "mixed".data
  { multipartSubtype := subtype
    preamble := "Multipart massage.\n".data
    headers :=
      [("From".data, m.sender), ("To".data, commaSpaceJoin m.«to»)]
        ++ (if !m.cc.isEmpty then [("Cc".data, commaSpaceJoin m.cc)] else [])
        ++ [("Date".data, date), ("Subject".data, m.subject)]
    parts := bodyPart :: m.parts }

/-- A fully constructed Message: the validated attributes together with the
underlying MIME message built by _setup_message. -/
structure Message extends MessageData where
  message : MimeMessage
deriving DecidableEq, Repr

/-- Model of Message.__init__: run every setter in source order (sender, to,
cc, bcc, subject, body, attachments, content), any failure aborting the
whole construction, then build the underlying MIME message. -/
def mkMessageData (fs : List Char → Option (List Nat)) (home : List Char)
    (sender : List Char) (recipients : FieldInput) (cc : FieldInput)
    (bcc : FieldInput) (subject : List Char) (body : List Char)
    (attachments : FieldInput) (content : List Char) :
    Except EmailError MessageData := do
  let s ← set_sender sender
  let t ← set_to recipients
  let c ← get_recipients cc
  let b ← get_recipients bcc
  let (att, parts) ← set_attachments fs home attachments
  let ct ← set_content content
  .ok { sender := s, «to» := t, cc := c, bcc := b, subject := subject,
        body := body, attachments := att, parts := parts, content := ct }

/-- Model of constructing a Message, including _setup_message. -/
def mkMessage (fs : List Char → Option (List Nat)) (home : List Char)
    (sender : List Char) (recipients : FieldInput) (cc : FieldInput)
    (bcc : FieldInput) (subject : List Char) (body : List Char)
    (attachments : FieldInput) (content : List Char) (date : List Char) :
    Except EmailError Message :=
  (mkMessageData fs home sender recipients cc bcc subject body attachments
      content).map
    (fun d => { d with message := setup_message d date })

/-- Rendering of a list of bytes for the serialized form. -/
def renderBytes : List Nat → List Char
  | [] => []
  | b :: bs => (Nat.toDigits 10 b) ++ ' ' :: renderBytes bs

/-- Structural rendering of one MIME part. -/
def MimePart.render : MimePart → List Char
  | .text body subtype =>
      "Content-Type: text/".data ++ subtype
        ++ "; charset=\"utf-8\"\n\n".data ++ body ++ ['\n']
  | .application bytes filename =>
      "Content-Disposition: attachment; filename=\"".data ++ filename
        ++ "\"\n\n".data ++ renderBytes bytes ++ ['\n']

/-- Structural rendering of a header line. -/
def renderHeader (h : List Char × List Char) : List Char :=
  h.1 ++ ':' :: ' ' :: h.2 ++ ['\n']

/-- Model of Message.as_string: the rendered message text, computed purely
from the structural MIME message. -/
def MimeMessage.asString (msg : MimeMessage) : List Char :=
  "Content-Type: multipart/".data ++ msg.multipartSubtype ++ ['\n']
    ++ "MIME-Version: 1.0\n".data
    ++ (msg.headers.map renderHeader).flatten
    ++ '\n' :: msg.preamble
    ++ (msg.parts.map MimePart.render).flatten

/-- Model of the Message.as_string property. -/
def Message.as_string (m : Message) : List Char := m.message.asString

/-! ## The SMTP transport

The smtplib session is an external collaborator.  Its behaviour is modelled
by an oracle stating which protocol calls would succeed; each attempted
protocol call is recorded in an event trace.  Exceptions escaping a method
are modelled with Except; exceptions caught inside a method become boolean
results as in the source. -/

/-- Which smtplib class the connection is opened with. -/
inductive ConnMethod
  | smtp
  | smtpSsl
deriving DecidableEq, Repr

/-- One protocol-level call on the smtplib session. -/
inductive SmtpEvent
  | openConn (method : ConnMethod) (port : Option Nat)
  | ehlo
  | starttls
  | login
  | sendmail (envelopeFrom : List Char) (envelopeTo : List (List Char))
      (body : List Char)
  | close
deriving DecidableEq, Repr

/-- Success oracle for the protocol calls of one session. -/
structure NetOracle where
  openOk : Bool
  ehloOk : Bool
  starttlsOk : Bool
  ehlo2Ok : Bool
  loginOk : Bool
  sendmailOk : Bool
  closeOk : Bool
deriving DecidableEq, Repr

/-- The failure stages of the connect sequence (the exceptions smtplib can
raise during SmtpServer.connect, which the source does not catch). -/
inductive ConnErr
  | openFailed
  | ehloFailed
  | starttlsFailed
  | ehlo2Failed
  | loginFailed
deriving DecidableEq, Repr

/-- Model of the SmtpServer attribute state. -/
structure SmtpServer where
  address : List Char
  username : Option (List Char)
  password : Option (List Char)
  tls : Bool
  ssl : Bool
  port : Option Nat
  connected : Bool
deriving DecidableEq, Repr

/-- Model of SmtpServer.__init__ with all arguments supplied. -/
def SmtpServer.make (smtp_address : List Char) (username password : Option (List Char))
    (tls ssl : Bool) (port : Option Nat) : SmtpServer :=
  { address := smtp_address, username := username, password := password,
    tls := tls, ssl := ssl, port := port, connected := false }

/-- Model of SmtpServer.__init__ with the keyword defaults of the source
applied: tls true, ssl false. -/
def SmtpServer.makeDefault (smtp_address : List Char) : SmtpServer :=
  SmtpServer.make smtp_address none none true false none

/-- Python truthiness of the optional username/password strings. -/
def optTruthy : Option (List Char) → Bool
  | none => false
  | some s => !s.isEmpty

/-- Model of SmtpServer.connect.  The connection method is SMTP_SSL when ssl
is set, plain SMTP otherwise; after the greeting, tls triggers STARTTLS and
a second greeting; authentication runs when both username and password are
truthy.  The source catches nothing here, so a failing step escapes as an
error and the state mutation setting connected is never reached. -/
def SmtpServer.connect (srv : SmtpServer) (net : NetOracle) :
    Except ConnErr Unit × SmtpServer × List SmtpEvent :=
  let method := if srv.ssl then ConnMethod.smtpSsl else ConnMethod.smtp
  let ev0 := [SmtpEvent.openConn method srv.port]
  if !net.openOk then (.error .openFailed, srv, ev0) else
  let ev1 := ev0 ++ [SmtpEvent.ehlo]
  if !net.ehloOk then (.error .ehloFailed, srv, ev1) else
  if srv.tls then
    let ev2 := ev1 ++ [SmtpEvent.starttls]
    if !net.starttlsOk then (.error .starttlsFailed, srv, ev2) else
    let ev3 := ev2 ++ [SmtpEvent.ehlo]
    if !net.ehlo2Ok then (.error .ehlo2Failed, srv, ev3) else
    if optTruthy srv.username && optTruthy srv.password then
      let ev4 := ev3 ++ [SmtpEvent.login]
      if !net.loginOk then (.error .loginFailed, srv, ev4)
      else (.ok (), { srv with connected := true }, ev4)
    else (.ok (), { srv with connected := true }, ev3)
  else
    if optTruthy srv.username && optTruthy srv.password then
      let ev2 := ev1 ++ [SmtpEvent.login]
      if !net.loginOk then (.error .loginFailed, srv, ev2)
      else (.ok (), { srv with connected := true }, ev2)
    else (.ok (), { srv with connected := true }, ev1)

/-- The message field arguments of SmtpServer.send / EasySender.send. -/
structure SendArgs where
  sender : List Char
  recipients : FieldInput
  cc : FieldInput
  bcc : FieldInput
  subject : List Char
  body : List Char
  attachments : FieldInput
  content : List Char
deriving DecidableEq, Repr

/-- Model of SmtpServer.send.  When not connected it returns failure at once,
performing nothing.  When connected it constructs a Message and transmits it
with the sender as envelope from and the recipients property as the envelope
recipient list; any exception (construction or transmission) is caught and
becomes a false result, leaving the state unchanged.  Only on successful
transmission is connected flipped to false. -/
def SmtpServer.send (srv : SmtpServer) (args : SendArgs)
    (fs : List Char → Option (List Nat)) (home : List Char) (date : List Char)
    (net : NetOracle) : Bool × SmtpServer × List SmtpEvent :=
  if !srv.connected then (false, srv, [])
  else
    match mkMessage fs home args.sender args.recipients args.cc args.bcc
        args.subject args.body args.attachments args.content date with
    | .error _ => (false, srv, [])
    | .ok m =>
      let ev := [SmtpEvent.sendmail m.sender m.toMessageData.recipients m.as_string]
      if net.sendmailOk then (true, { srv with connected := false }, ev)
      else (false, srv, ev)

/-- Model of SmtpServer.disconnect: a no-op success when not connected;
otherwise close the session, flipping connected only on success. -/
def SmtpServer.disconnect (srv : SmtpServer) (net : NetOracle) :
    Bool × SmtpServer × List SmtpEvent :=
  if !srv.connected then (true, srv, [])
  else
    let ev := [SmtpEvent.close]
    if net.closeOk then (true, { srv with connected := false }, ev)
    else (false, srv, ev)

/-! ## The EasySender wrapper -/

/-- Model of the EasySender attribute state: the wrapped server. -/
structure EasySender where
  server : SmtpServer
deriving DecidableEq, Repr

/-- Model of EasySender.__init__ with all arguments supplied. -/
def EasySender.make (smtp_address : List Char) (username password : Option (List Char))
    (tls ssl : Bool) (port : Option Nat) : EasySender :=
  { server := SmtpServer.make smtp_address username password tls ssl port }

/-- Model of EasySender.__init__ with the keyword defaults of the source
applied: tls false, ssl true. -/
def EasySender.makeDefault (smtp_address : List Char) : EasySender :=
  EasySender.make smtp_address none none false true none

/-- The wrapper-level calls EasySender.send makes on its server. -/
inductive EasyEvent
  | connect
  | send
  | disconnect
deriving DecidableEq, Repr

/-- Model of EasySender.send: connect (whose exceptions are not caught and
escape the wrapper), then send, then disconnect, discarding both inner
results, and finally the constant true. -/
def EasySender.send (es : EasySender) (args : SendArgs)
    (fs : List Char → Option (List Nat)) (home : List Char) (date : List Char)
    (net : NetOracle) : Except ConnErr Bool × EasySender × List EasyEvent :=
  let (r, srv1, _) := es.server.connect net
  match r with
  | .error e => (.error e, { server := srv1 }, [EasyEvent.connect])
  | .ok _ =>
    let (_, srv2, _) := srv1.send args fs home date net
    let (_, srv3, _) := srv2.disconnect net
    (.ok true, { server := srv3 },
     [EasyEvent.connect, EasyEvent.send, EasyEvent.disconnect])

/-! ## Definitions supporting the claims -/

/-- The entries of a recipient field after the normalization step and before
validation: nothing for an untruthy value, otherwise the comma-split and
stripped entries of a string or the entries of a list. -/
def normalizeField : FieldInput → List (List Char)
  | .fnone => []
  | .fsome a =>
    if (FieldInput.fsome a).truthy then comma_delimited_to_list a else []

/-- The ok payload of a construction result, when there is one. -/
def okValue : Except EmailError Message → Option Message
  | .ok m => some m
  | .error _ => none

/-- An empty filesystem oracle for concrete runs without attachments. -/
def emptyFs : List Char → Option (List Nat) := fun _ => none

/-- The construction run of the valid scenario in the test suite of the
library (string to field, list cc field, comma-delimited bcc field). -/
def scenarioRun : Except EmailError Message :=
  mkMessage emptyFs [] "test@valid.com".data
    (.fsome (.str "whatever@gmail.com".data))
    (.fsome (.lst ["somebody@gmail.com".data]))
    (.fsome (.str "more@gmail.com,andmore@gmail.com".data))
    "T t".data "body".data .fnone "text".data "D".data

/-- The Message produced by the valid scenario. -/
def scenarioMessage : Message := (okValue scenarioRun).get (by decide)

/-- A construction run in which the same address is supplied both as the to
field and as the bcc field. -/
def overlapRun : Except EmailError Message :=
  mkMessage emptyFs [] "s@d.co".data (.fsome (.str "x@y.zw".data)) .fnone
    (.fsome (.str "x@y.zw".data)) [] [] .fnone "text".data []

/-- A network oracle on which every protocol call succeeds. -/
def allOkNet : NetOracle :=
  { openOk := true, ehloOk := true, starttlsOk := true, ehlo2Ok := true,
    loginOk := true, sendmailOk := true, closeOk := true }

/-- A network oracle on which opening the connection fails. -/
def openFailNet : NetOracle := { allOkNet with openOk := false }

/-- A sample set of message field arguments for transport-level runs. -/
def sampleArgs : SendArgs :=
  { sender := "test@valid.com".data,
    recipients := .fsome (.str "whatever@gmail.com".data),
    cc := .fnone, bcc := .fnone, subject := "s".data, body := "b".data,
    attachments := .fnone, content := "text".data }

/-- Model of SmtpServer.__init__ with only the tls/ssl keyword defaults of
the source applied (tls true, ssl false), the other keywords supplied. -/
def SmtpServer.makeFlagsDefault (smtp_address : List Char)
    (username password : Option (List Char)) (port : Option Nat) : SmtpServer :=
  SmtpServer.make smtp_address username password true false port

/-- Model of EasySender.__init__ with only the tls/ssl keyword defaults of
the source applied (tls false, ssl true), the other keywords supplied. -/
def EasySender.makeFlagsDefault (smtp_address : List Char)
    (username password : Option (List Char)) (port : Option Nat) : EasySender :=
  EasySender.make smtp_address username password false true port

/-- A sample transport in the connected state. -/
def connectedServer : SmtpServer :=
  { SmtpServer.make "smtp.test.com".data none none true false (some 587) with
      connected := true }

/-- The default-constructed one-shot sender of the sample address. -/
def easy0 : EasySender := EasySender.makeDefault "smtp.test.com".data

/-- The construction run of the sample message fields. -/
def sampleRun : Except EmailError Message :=
  mkMessage emptyFs [] sampleArgs.sender sampleArgs.recipients sampleArgs.cc
    sampleArgs.bcc sampleArgs.subject sampleArgs.body sampleArgs.attachments
    sampleArgs.content "D".data

/-- The Message produced by the sample message fields. -/
def sampleMessage : Message := (okValue sampleRun).get (by decide)

/-- A construction run parameterized only by the construction date. -/
def dateRun (date : List Char) : Except EmailError Message :=
  mkMessage emptyFs [] "a@b.cd".data (.fsome (.str "x@y.zw".data)) .fnone
    .fnone "s".data "b".data .fnone "text".data date

/-- The dateRun message at the first sample date. -/
def dateMessage1 : Message := (okValue (dateRun "D1".data)).get (by decide)

/-- The dateRun message at the second sample date. -/
def dateMessage2 : Message := (okValue (dateRun "D2".data)).get (by decide)

/-- A construction run with html content. -/
def htmlRun : Except EmailError Message :=
  mkMessage emptyFs [] "a@b.cd".data (.fsome (.str "x@y.zw".data)) .fnone
    .fnone "s".data "b".data .fnone "html".data "D".data

/-- The Message produced by the html construction run. -/
def htmlMessage : Message := (okValue htmlRun).get (by decide)

/-! ## Supporting lemmas -/

theorem startsWithSeg_append (n r : List Char) : startsWithSeg n (n ++ r) = true := by
  induction n with
  | nil => rfl
  | cons x xs ih => simp [startsWithSeg, ih]

theorem containsSeg_here (n r : List Char) : containsSeg n (n ++ r) = true := by
  cases n with
  | nil => cases r <;> simp [containsSeg, startsWithSeg]
  | cons x xs =>
    show (startsWithSeg (x :: xs) ((x :: xs) ++ r)
        || containsSeg (x :: xs) (xs ++ r)) = true
    rw [startsWithSeg_append]
    simp

theorem containsSeg_extend (n pre post : List Char) :
    containsSeg n (pre ++ n ++ post) = true := by
  induction pre with
  | nil => simpa using containsSeg_here n post
  | cons x xs ih =>
    show (startsWithSeg n (x :: (xs ++ n ++ post))
        || containsSeg n (xs ++ n ++ post)) = true
    rw [ih]
    simp

theorem mapM_validate_forall₂ :
    ∀ (l r : List (List Char)), List.mapM validate_simple l = .ok r →
      List.Forall₂ (fun e a => validate_simple e = .ok a) l r := by
  intro l
  induction l with
  | nil =>
    intro r h
    simp only [List.mapM_nil] at h
    cases h
    exact List.Forall₂.nil
  | cons x xs ih =>
    intro r h
    rw [List.mapM_cons] at h
    cases hx : validate_simple x with
    | error e => rw [hx] at h; simp [Bind.bind, Except.bind] at h
    | ok a =>
      rw [hx] at h
      simp only [Bind.bind, Except.bind] at h
      cases hxs : List.mapM validate_simple xs with
      | error e => rw [hxs] at h; simp at h
      | ok bs =>
        rw [hxs] at h
        simp only [Pure.pure, Except.pure, Except.ok.injEq] at h
        cases h
        exact List.Forall₂.cons hx (ih bs hxs)

theorem get_recipients_eq_mapM (v : FieldInput) :
    get_recipients v = List.mapM validate_simple (normalizeField v) := by
  cases v with
  | fnone => rfl
  | fsome a =>
    simp only [get_recipients, normalizeField]
    by_cases h : (FieldInput.fsome a).truthy = true
    · rw [if_pos h, if_pos h]
    · rw [if_neg h, if_neg h]; rfl

theorem set_to_ok {v : FieldInput} {l : List (List Char)}
    (h : set_to v = .ok l) : get_recipients v = .ok l := by
  unfold set_to at h
  by_cases ht : v.truthy = true
  · rwa [if_neg (by simp [ht])] at h
  · rw [if_pos (by simp [Bool.not_eq_true] at ht ⊢; exact ht)] at h
    cases h

theorem mkMessage_ok_iff {fs : List Char → Option (List Nat)} {home : List Char}
    {sender : List Char} {recipients cc bcc : FieldInput}
    {subject body : List Char} {attachments : FieldInput}
    {content date : List Char} {m : Message} :
    mkMessage fs home sender recipients cc bcc subject body attachments
        content date = .ok m ↔
      mkMessageData fs home sender recipients cc bcc subject body attachments
          content = .ok m.toMessageData ∧
        m.message = setup_message m.toMessageData date := by
  unfold mkMessage
  cases hd : mkMessageData fs home sender recipients cc bcc subject body
      attachments content with
  | error e => simp [Except.map]
  | ok d =>
    cases m with
    | mk md msg =>
      simp only [Except.map, Except.ok.injEq, Message.mk.injEq]
      constructor
      · rintro ⟨rfl, rfl⟩
        exact ⟨rfl, rfl⟩
      · rintro ⟨h1, h2⟩
        cases h1
        exact ⟨rfl, h2.symm⟩

theorem mkMessageData_ok {fs : List Char → Option (List Nat)} {home : List Char}
    {sender : List Char} {recipients cc bcc : FieldInput}
    {subject body : List Char} {attachments : FieldInput}
    {content : List Char} {dta : MessageData}
    (h : mkMessageData fs home sender recipients cc bcc subject body
        attachments content = .ok dta) :
    set_sender sender = .ok dta.sender ∧
      set_to recipients = .ok dta.«to» ∧
      get_recipients cc = .ok dta.cc ∧
      get_recipients bcc = .ok dta.bcc ∧
      set_attachments fs home attachments = .ok (dta.attachments, dta.parts) ∧
      set_content content = .ok dta.content ∧
      dta.subject = subject ∧ dta.body = body := by
  unfold mkMessageData at h
  cases hs : set_sender sender with
  | error e => rw [hs] at h; simp [Bind.bind, Except.bind] at h
  | ok s =>
  rw [hs] at h
  simp only [Bind.bind, Except.bind] at h
  cases ht : set_to recipients with
  | error e => rw [ht] at h; simp at h
  | ok t =>
  rw [ht] at h
  cases hc : get_recipients cc with
  | error e => rw [hc] at h; simp at h
  | ok c =>
  rw [hc] at h
  cases hb : get_recipients bcc with
  | error e => rw [hb] at h; simp at h
  | ok b =>
  rw [hb] at h
  cases hap : set_attachments fs home attachments with
  | error e => rw [hap] at h; simp at h
  | ok ap =>
  rw [hap] at h
  cases hct : set_content content with
  | error e => rw [hct] at h; simp at h
  | ok ct =>
  rw [hct] at h
  simp only [Except.ok.injEq] at h
  cases h
  exact ⟨rfl, rfl, rfl, rfl, rfl, rfl, rfl, rfl⟩

theorem setup_message_headers_mem {d : MessageData} {date : List Char}
    {q : List Char × List Char} (hq : q ∈ (setup_message d date).headers) :
    q = ("From".data, d.sender) ∨ q = ("To".data, commaSpaceJoin d.«to») ∨
      (q = ("Cc".data, commaSpaceJoin d.cc) ∧ d.cc ≠ []) ∨
      q = ("Date".data, date) ∨ q = ("Subject".data, d.subject) := by
  unfold setup_message at hq
  simp only [List.mem_append, List.mem_cons, List.not_mem_nil, or_false] at hq
  rcases hq with ((h | h) | h) | (h | h)
  · exact Or.inl h
  · exact Or.inr (Or.inl h)
  · by_cases hcc : d.cc.isEmpty = true
    · rw [hcc] at h; simp at h
    · rw [Bool.not_eq_true] at hcc
      rw [hcc] at h
      simp only [Bool.not_false, if_true, List.mem_singleton] at h
      refine Or.inr (Or.inr (Or.inl ⟨h, fun hnil => ?_⟩))
      rw [hnil] at hcc
      simp at hcc
  · exact Or.inr (Or.inr (Or.inr (Or.inl h)))
  · exact Or.inr (Or.inr (Or.inr (Or.inr h)))

theorem setup_message_header_names {d : MessageData} {date : List Char}
    {q : List Char × List Char} (hq : q ∈ (setup_message d date).headers) :
    q.1 = "From".data ∨ q.1 = "To".data ∨ q.1 = "Cc".data ∨
      q.1 = "Date".data ∨ q.1 = "Subject".data := by
  rcases setup_message_headers_mem hq with h | h | ⟨h, -⟩ | h | h <;> subst h
  · exact Or.inl rfl
  · exact Or.inr (Or.inl rfl)
  · exact Or.inr (Or.inr (Or.inl rfl))
  · exact Or.inr (Or.inr (Or.inr (Or.inl rfl)))
  · exact Or.inr (Or.inr (Or.inr (Or.inr rfl)))

theorem setup_message_headers_filter_date (d : MessageData) (date : List Char) :
    (setup_message d date).headers.filter
        (fun q => decide (q.1 ≠ "Date".data)) =
      [("From".data, d.sender), ("To".data, commaSpaceJoin d.«to»)]
        ++ (if !d.cc.isEmpty then [("Cc".data, commaSpaceJoin d.cc)] else [])
        ++ [("Subject".data, d.subject)] := by
  unfold setup_message
  by_cases hcc : d.cc.isEmpty = true
  · rw [hcc]
    simp only [Bool.not_true, if_false, Bool.not_false, if_true]
    rfl
  · rw [Bool.not_eq_true] at hcc
    rw [hcc]
    simp only [Bool.not_false, if_true]
    rfl

theorem setup_message_no_bcc_header (d : MessageData) (date : List Char) :
    "Bcc".data ∉ (setup_message d date).headers.map Prod.fst := by
  intro hmem
  obtain ⟨q, hq, hq1⟩ := List.mem_map.mp hmem
  rcases setup_message_header_names hq with h | h | h | h | h <;>
    rw [h] at hq1 <;> exact absurd hq1 (by decide)

/-! ## The claims -/

/-- C1, as stated, is refuted: a Message can be successfully constructed
with the same address in the to field and in the bcc field; that bcc
address then appears in the rendered To header, while still being a
member of the bcc list. -/
theorem claim1_counterexample :
    overlapRun.map (fun m =>
        (m.bcc, decide (("To".data, "x@y.zw".data) ∈ m.message.headers)))
      = .ok (["x@y.zw".data], true) := by decide

/-- C1 (amended): for every successfully constructed Message the Bcc header
is never set, every rendered header is one of From, To, Cc, Date and
Subject, the From, To and Cc header values are exactly the sender, the
comma-space-joined to list and the comma-space-joined cc list (so a bcc
address can reach a rendered header only by also occurring as the sender or
in to or cc), and every bcc address is included in the recipients list used
as the SMTP envelope recipient list. -/
theorem claim1_bcc_semantics (fs : List Char → Option (List Nat))
    (home sender : List Char) (recipients cc bcc : FieldInput)
    (subject body : List Char) (attachments : FieldInput)
    (content date : List Char) (m : Message)
    (h : mkMessage fs home sender recipients cc bcc subject body attachments
        content date = .ok m) :
    "Bcc".data ∉ m.message.headers.map Prod.fst ∧
      (∀ q ∈ m.message.headers,
        q.1 = "From".data ∨ q.1 = "To".data ∨ q.1 = "Cc".data ∨
          q.1 = "Date".data ∨ q.1 = "Subject".data) ∧
      (∀ v, ("From".data, v) ∈ m.message.headers → v = m.sender) ∧
      (∀ v, ("To".data, v) ∈ m.message.headers → v = commaSpaceJoin m.«to») ∧
      (∀ v, ("Cc".data, v) ∈ m.message.headers → v = commaSpaceJoin m.cc) ∧
      (∀ a ∈ m.bcc, a ∈ m.toMessageData.recipients) := by
  obtain ⟨-, hmsg⟩ := mkMessage_ok_iff.mp h
  rw [hmsg]
  refine ⟨setup_message_no_bcc_header _ _,
    fun q hq => setup_message_header_names hq, ?_, ?_, ?_, ?_⟩
  · intro v hv
    rcases setup_message_headers_mem hv with h1 | h1 | ⟨h1, -⟩ | h1 | h1 <;>
      have h2 := (Prod.mk.injEq _ _ _ _).mp h1
    · exact h2.2
    · exact absurd h2.1 (by decide)
    · exact absurd h2.1 (by decide)
    · exact absurd h2.1 (by decide)
    · exact absurd h2.1 (by decide)
  · intro v hv
    rcases setup_message_headers_mem hv with h1 | h1 | ⟨h1, -⟩ | h1 | h1 <;>
      have h2 := (Prod.mk.injEq _ _ _ _).mp h1
    · exact absurd h2.1 (by decide)
    · exact h2.2
    · exact absurd h2.1 (by decide)
    · exact absurd h2.1 (by decide)
    · exact absurd h2.1 (by decide)
  · intro v hv
    rcases setup_message_headers_mem hv with h1 | h1 | ⟨h1, -⟩ | h1 | h1 <;>
      have h2 := (Prod.mk.injEq _ _ _ _).mp h1
    · exact absurd h2.1 (by decide)
    · exact absurd h2.1 (by decide)
    · exact h2.2
    · exact absurd h2.1 (by decide)
    · exact absurd h2.1 (by decide)
  · intro a ha
    unfold MessageData.recipients
    exact List.mem_append_right _ ha

/-- Witness for C1 (amended), at the valid scenario of the test suite. -/
theorem claim1_witness :
    "Bcc".data ∉ scenarioMessage.message.headers.map Prod.fst ∧
      (∀ a ∈ scenarioMessage.bcc, a ∈ scenarioMessage.toMessageData.recipients) := by
  have h := claim1_bcc_semantics emptyFs [] "test@valid.com".data
    (.fsome (.str "whatever@gmail.com".data))
    (.fsome (.lst ["somebody@gmail.com".data]))
    (.fsome (.str "more@gmail.com,andmore@gmail.com".data))
    "T t".data "body".data .fnone "text".data "D".data scenarioMessage
    (by decide)
  exact ⟨h.1, h.2.2.2.2.2⟩

/-- C2: for every successfully constructed Message, the recipients list is
the concatenation of the stored to, cc and bcc lists in that order, and each
stored list arises from validating the normalized entries of the
corresponding input element by element, in order, with duplicates kept
(the element-wise correspondence is a Forall₂). -/
theorem claim2_recipients_concat (fs : List Char → Option (List Nat))
    (home sender : List Char) (recipients cc bcc : FieldInput)
    (subject body : List Char) (attachments : FieldInput)
    (content date : List Char) (m : Message)
    (h : mkMessage fs home sender recipients cc bcc subject body attachments
        content date = .ok m) :
    m.toMessageData.recipients = m.«to» ++ m.cc ++ m.bcc ∧
      set_to recipients = .ok m.«to» ∧
      get_recipients cc = .ok m.cc ∧
      get_recipients bcc = .ok m.bcc ∧
      List.Forall₂ (fun e a => validate_simple e = .ok a)
        (normalizeField recipients) m.«to» ∧
      List.Forall₂ (fun e a => validate_simple e = .ok a)
        (normalizeField cc) m.cc ∧
      List.Forall₂ (fun e a => validate_simple e = .ok a)
        (normalizeField bcc) m.bcc := by
  obtain ⟨hd, -⟩ := mkMessage_ok_iff.mp h
  obtain ⟨-, ht, hc, hb, -, -, -, -⟩ := mkMessageData_ok hd
  have ht' := set_to_ok ht
  refine ⟨rfl, ht, hc, hb, ?_, ?_, ?_⟩
  · exact mapM_validate_forall₂ _ _ (by rw [← get_recipients_eq_mapM]; exact ht')
  · exact mapM_validate_forall₂ _ _ (by rw [← get_recipients_eq_mapM]; exact hc)
  · exact mapM_validate_forall₂ _ _ (by rw [← get_recipients_eq_mapM]; exact hb)

/-- Witness for C2: the valid scenario yields exactly the four envelope
recipients, in order (to, then cc, then bcc). -/
theorem claim2_witness :
    scenarioMessage.toMessageData.recipients =
        scenarioMessage.«to» ++ scenarioMessage.cc ++ scenarioMessage.bcc ∧
      scenarioMessage.toMessageData.recipients =
        ["whatever@gmail.com".data, "somebody@gmail.com".data,
         "more@gmail.com".data, "andmore@gmail.com".data] := by
  have h := claim2_recipients_concat emptyFs [] "test@valid.com".data
    (.fsome (.str "whatever@gmail.com".data))
    (.fsome (.lst ["somebody@gmail.com".data]))
    (.fsome (.str "more@gmail.com,andmore@gmail.com".data))
    "T t".data "body".data .fnone "text".data "D".data scenarioMessage
    (by decide)
  exact ⟨h.1, by decide⟩

/-- C4: on a connected transport with a constructible message, a successful
transmission returns true and unconditionally flips connected to false, while
a failed transmission returns false and leaves the state unchanged (still
connected). -/
theorem claim4_send_state (srv : SmtpServer) (args : SendArgs)
    (fs : List Char → Option (List Nat)) (home date : List Char)
    (net : NetOracle) (m : Message)
    (hconn : srv.connected = true)
    (hm : mkMessage fs home args.sender args.recipients args.cc args.bcc
        args.subject args.body args.attachments args.content date = .ok m) :
    (net.sendmailOk = true →
      srv.send args fs home date net =
        (true, { srv with connected := false },
          [SmtpEvent.sendmail m.sender m.toMessageData.recipients
            m.as_string])) ∧
      (net.sendmailOk = false →
        srv.send args fs home date net =
          (false, srv,
            [SmtpEvent.sendmail m.sender m.toMessageData.recipients
              m.as_string])) := by
  unfold SmtpServer.send
  rw [hconn, hm]
  constructor
  · intro hok; rw [hok]; rfl
  · intro hko; rw [hko]; rfl

/-- Witness for C4: a concrete successful send flips connected to false. -/
theorem claim4_witness :
    connectedServer.send sampleArgs emptyFs [] "D".data allOkNet =
      (true, { connectedServer with connected := false },
        [SmtpEvent.sendmail sampleMessage.sender
          sampleMessage.toMessageData.recipients sampleMessage.as_string]) :=
  (claim4_send_state connectedServer sampleArgs emptyFs [] "D".data allOkNet
    sampleMessage rfl (by decide)).1 rfl

/-- C5: every failing connect leaves the transport state entirely unchanged,
so a transport that was disconnected stays disconnected; and a failure at
any stage of the sequence (open, greeting, STARTTLS, re-greeting,
authentication) makes connect fail with the corresponding connection
error. -/
theorem claim5_connect_failure (srv : SmtpServer) (net : NetOracle)
    (hconn : srv.connected = false) :
    (∀ e : ConnErr, (srv.connect net).1 = .error e →
        (srv.connect net).2.1 = srv ∧
          (srv.connect net).2.1.connected = false) ∧
      (net.openOk = false →
        (srv.connect net).1 = .error ConnErr.openFailed) ∧
      (net.openOk = true → net.ehloOk = false →
        (srv.connect net).1 = .error ConnErr.ehloFailed) ∧
      (net.openOk = true → net.ehloOk = true → srv.tls = true →
        net.starttlsOk = false →
        (srv.connect net).1 = .error ConnErr.starttlsFailed) ∧
      (net.openOk = true → net.ehloOk = true → srv.tls = true →
        net.starttlsOk = true → net.ehlo2Ok = false →
        (srv.connect net).1 = .error ConnErr.ehlo2Failed) ∧
      (net.openOk = true → net.ehloOk = true →
        (srv.tls = true → net.starttlsOk = true ∧ net.ehlo2Ok = true) →
        (optTruthy srv.username && optTruthy srv.password) = true →
        net.loginOk = false →
        (srv.connect net).1 = .error ConnErr.loginFailed) := by
  refine ⟨?_, ?_, ?_, ?_, ?_, ?_⟩
  · intro e herr
    have hstate : (srv.connect net).2.1 = srv := by
      simp only [SmtpServer.connect] at herr ⊢
      split_ifs at herr ⊢ <;> simp_all
    exact ⟨hstate, by rw [hstate]; exact hconn⟩
  · intro h; simp [SmtpServer.connect, h]
  · intro h1 h2; simp [SmtpServer.connect, h1, h2]
  · intro h1 h2 h3 h4; simp [SmtpServer.connect, h1, h2, h3, h4]
  · intro h1 h2 h3 h4 h5; simp [SmtpServer.connect, h1, h2, h3, h4, h5]
  · intro h1 h2 h3 h4 h5
    by_cases htls : srv.tls = true
    · obtain ⟨hs, he2⟩ := h3 htls
      simp [SmtpServer.connect, h1, h2, htls, hs, he2, h4, h5]
    · have htls' : srv.tls = false := by
        cases hsrv : srv.tls
        · rfl
        · exact absurd hsrv htls
      simp [SmtpServer.connect, h1, h2, htls', h4, h5]

/-- Witness for C5: a concrete failed open fails with the open error and
leaves the sample transport disconnected. -/
theorem claim5_witness :
    ((SmtpServer.make "smtp.test.com".data none none true false none).connect
          openFailNet).1
        = .error ConnErr.openFailed ∧
      ((SmtpServer.make "smtp.test.com".data none none true false
          none).connect openFailNet).2.1.connected = false := by
  have h := claim5_connect_failure
    (SmtpServer.make "smtp.test.com".data none none true false none)
    openFailNet rfl
  have he := h.2.1 rfl
  exact ⟨he, (h.1 ConnErr.openFailed he).2⟩

/-- C6: a send on a disconnected transport returns false without raising,
records no protocol call, does not depend on the message fields, the
filesystem or the network (so no message is constructed and no input/output
is attempted), and leaves the state unchanged. -/
theorem claim6_send_not_connected (srv : SmtpServer) (args : SendArgs)
    (fs : List Char → Option (List Nat)) (home date : List Char)
    (net : NetOracle) (h : srv.connected = false) :
    srv.send args fs home date net = (false, srv, []) := by
  unfold SmtpServer.send
  rw [h]
  rfl

/-- Witness for C6: a concrete send on a freshly constructed (disconnected)
transport fails and changes nothing. -/
theorem claim6_witness :
    (SmtpServer.make "smtp.test.com".data (some "hacker".data)
          (some "whatever".data) true false (some 587)).send sampleArgs
          emptyFs [] "D".data allOkNet
      = (false,
          SmtpServer.make "smtp.test.com".data (some "hacker".data)
            (some "whatever".data) true false (some 587), []) :=
  claim6_send_not_connected _ sampleArgs emptyFs [] "D".data allOkNet rfl

/-- C7, as stated, is refuted: when the underlying connect raises, the
wrapper propagates the exception, performs neither Send nor Disconnect, and
does not return the fixed success indicator. -/
theorem claim7_counterexample :
    (easy0.send sampleArgs emptyFs [] "D".data openFailNet).1
        = .error ConnErr.openFailed ∧
      (easy0.send sampleArgs emptyFs [] "D".data openFailNet).2.2
        = [EasyEvent.connect] := by
  exact ⟨rfl, rfl⟩

/-- C7 (amended): whenever the initial connect succeeds, the wrapper
performs connect, then send, then disconnect, in that order, regardless of
the send result (the network oracle and message fields are arbitrary), and
returns the fixed success indicator true. -/
theorem claim7_wrapper (es : EasySender) (args : SendArgs)
    (fs : List Char → Option (List Nat)) (home date : List Char)
    (net : NetOracle) (hok : (es.server.connect net).1 = .ok ()) :
    (es.send args fs home date net).1 = .ok true ∧
      (es.send args fs home date net).2.2 =
        [EasyEvent.connect, EasyEvent.send, EasyEvent.disconnect] := by
  rcases hx : es.server.connect net with ⟨r, srv1, tr⟩
  rw [hx] at hok
  have hr : r = .ok () := hok
  subst hr
  unfold EasySender.send
  rw [hx]
  exact ⟨rfl, rfl⟩

/-- Witness for C7 (amended): with an all-successful oracle the wrapper runs
all three phases and returns true. -/
theorem claim7_witness :
    (easy0.send sampleArgs emptyFs [] "D".data allOkNet).1 = .ok true ∧
      (easy0.send sampleArgs emptyFs [] "D".data allOkNet).2.2 =
        [EasyEvent.connect, EasyEvent.send, EasyEvent.disconnect] :=
  claim7_wrapper easy0 sampleArgs emptyFs [] "D".data allOkNet (by decide)

/-- C8: Message construction is deterministic given identical inputs except
for the date oracle: two constructions from the same fields at dates d1 and
d2 agree on all validated data, on the MIME subtype, preamble and parts, and
on every header except the Date header, whose value is exactly the
respective construction date; with equal dates the serialized outputs are
identical (serialization itself is a pure function of the message). -/
theorem claim8_serialize_deterministic (fs : List Char → Option (List Nat))
    (home sender : List Char) (recipients cc bcc : FieldInput)
    (subject body : List Char) (attachments : FieldInput)
    (content d1 d2 : List Char) (m1 m2 : Message)
    (h1 : mkMessage fs home sender recipients cc bcc subject body attachments
        content d1 = .ok m1)
    (h2 : mkMessage fs home sender recipients cc bcc subject body attachments
        content d2 = .ok m2) :
    m1.toMessageData = m2.toMessageData ∧
      m1.message.multipartSubtype = m2.message.multipartSubtype ∧
      m1.message.preamble = m2.message.preamble ∧
      m1.message.parts = m2.message.parts ∧
      m1.message.headers.filter (fun q => decide (q.1 ≠ "Date".data)) =
        m2.message.headers.filter (fun q => decide (q.1 ≠ "Date".data)) ∧
      (∀ v, ("Date".data, v) ∈ m1.message.headers → v = d1) ∧
      (∀ v, ("Date".data, v) ∈ m2.message.headers → v = d2) ∧
      (d1 = d2 → m1.as_string = m2.as_string) := by
  obtain ⟨hd1, hm1⟩ := mkMessage_ok_iff.mp h1
  obtain ⟨hd2, hm2⟩ := mkMessage_ok_iff.mp h2
  rw [hd1] at hd2
  have hdata : m1.toMessageData = m2.toMessageData := Except.ok.inj hd2
  have hdate1 : ∀ v, ("Date".data, v) ∈ m1.message.headers → v = d1 := by
    intro v hv
    rw [hm1] at hv
    rcases setup_message_headers_mem hv with hq | hq | ⟨hq, -⟩ | hq | hq <;>
      have hcomp := (Prod.mk.injEq _ _ _ _).mp hq
    · exact absurd hcomp.1 (by decide)
    · exact absurd hcomp.1 (by decide)
    · exact absurd hcomp.1 (by decide)
    · exact hcomp.2
    · exact absurd hcomp.1 (by decide)
  have hdate2 : ∀ v, ("Date".data, v) ∈ m2.message.headers → v = d2 := by
    intro v hv
    rw [hm2] at hv
    rcases setup_message_headers_mem hv with hq | hq | ⟨hq, -⟩ | hq | hq <;>
      have hcomp := (Prod.mk.injEq _ _ _ _).mp hq
    · exact absurd hcomp.1 (by decide)
    · exact absurd hcomp.1 (by decide)
    · exact absurd hcomp.1 (by decide)
    · exact hcomp.2
    · exact absurd hcomp.1 (by decide)
  refine ⟨hdata, ?_, ?_, ?_, ?_, hdate1, hdate2, ?_⟩
  · rw [hm1, hm2, hdata]; rfl
  · rw [hm1, hm2]; rfl
  · rw [hm1, hm2, hdata]; rfl
  · rw [hm1, hm2, hdata, setup_message_headers_filter_date,
      setup_message_headers_filter_date]
  · intro hdd
    subst hdd
    unfold Message.as_string
    rw [hm1, hm2, hdata]

/-- Witness for C8: two concrete constructions differing only in the date
agree on the validated data and on all non-Date headers. -/
theorem claim8_witness :
    dateMessage1.toMessageData = dateMessage2.toMessageData ∧
      dateMessage1.message.headers.filter
          (fun q => decide (q.1 ≠ "Date".data)) =
        dateMessage2.message.headers.filter
          (fun q => decide (q.1 ≠ "Date".data)) := by
  have h := claim8_serialize_deterministic emptyFs [] "a@b.cd".data
    (.fsome (.str "x@y.zw".data)) .fnone .fnone "s".data "b".data .fnone
    "text".data "D1".data "D2".data dateMessage1 dateMessage2
    (by decide) (by decide)
  exact ⟨h.1, h.2.2.2.2.1⟩

/-- C9: the content inputs HTML, Html and html are equivalent, are stored
canonically as html, and select the multipart/alternative body path with an
html text part; every content value whose lowercasing is neither text nor
html is rejected by the content setter with a ValidationError whose message
names the invalid value and the allowed set, and makes the whole
construction fail. -/
theorem claim9_content_case :
    (set_content "HTML".data = .ok "html".data ∧
      set_content "Html".data = .ok "html".data ∧
      set_content "html".data = .ok "html".data) ∧
      (∀ (fs : List Char → Option (List Nat)) (home sender : List Char)
          (recipients cc bcc : FieldInput) (subject body : List Char)
          (attachments : FieldInput) (date : List Char),
        mkMessage fs home sender recipients cc bcc subject body attachments
            "HTML".data date =
          mkMessage fs home sender recipients cc bcc subject body attachments
            "html".data date ∧
        mkMessage fs home sender recipients cc bcc subject body attachments
            "Html".data date =
          mkMessage fs home sender recipients cc bcc subject body attachments
            "html".data date) ∧
      (∀ (fs : List Char → Option (List Nat)) (home sender : List Char)
          (recipients cc bcc : FieldInput) (subject body : List Char)
          (attachments : FieldInput) (date : List Char) (m : Message),
        mkMessage fs home sender recipients cc bcc subject body attachments
            "html".data date = .ok m →
          m.content = "html".data ∧
            m.message.multipartSubtype = "alternative".data ∧
            m.message.parts =
              MimePart.text m.body "html".data :: m.toMessageData.parts) ∧
      (∀ v : List Char, pyLower v ≠ "text".data → pyLower v ≠ "html".data →
        set_content v = .error (.invalidContent v) ∧
          containsSeg v (EmailError.invalidContent v).message = true ∧
          containsSeg "[\"text\", \"html\"]".data
            (EmailError.invalidContent v).message = true) ∧
      (∀ (fs : List Char → Option (List Nat)) (home sender : List Char)
          (recipients cc bcc : FieldInput) (subject body : List Char)
          (attachments : FieldInput) (date v : List Char) (m : Message),
        pyLower v ≠ "text".data → pyLower v ≠ "html".data →
          mkMessage fs home sender recipients cc bcc subject body attachments
            v date ≠ .ok m) := by
  have herr : ∀ v : List Char, pyLower v ≠ "text".data →
      pyLower v ≠ "html".data →
      set_content v = .error (.invalidContent v) := by
    intro v hv1 hv2
    unfold set_content
    rw [if_neg (by simp [hv1, hv2])]
  refine ⟨⟨rfl, rfl, rfl⟩, ?_, ?_, ?_, ?_⟩
  · intro fs home sender recipients cc bcc subject body attachments date
    exact ⟨rfl, rfl⟩
  · intro fs home sender recipients cc bcc subject body attachments date m h
    obtain ⟨hd, hmsg⟩ := mkMessage_ok_iff.mp h
    obtain ⟨-, -, -, -, -, hct, -, -⟩ := mkMessageData_ok hd
    have hct' : (Except.ok ("html".data) : Except EmailError (List Char))
        = .ok m.toMessageData.content := hct
    have hcontent : m.toMessageData.content = "html".data :=
      (Except.ok.inj hct').symm
    refine ⟨hcontent, ?_, ?_⟩
    · rw [hmsg]; simp [setup_message, hcontent]
    · rw [hmsg]; simp [setup_message, hcontent]
  · intro v hv1 hv2
    refine ⟨herr v hv1 hv2, ?_, ?_⟩
    · exact containsSeg_extend v "Invalid content type :".data
        ".Allowed [\"text\", \"html\"]".data
    · have h2 := containsSeg_extend "[\"text\", \"html\"]".data
        ("Invalid content type :".data ++ v ++ ".Allowed ".data) []
      rw [List.append_nil, List.append_assoc] at h2
      exact h2
  · intro fs home sender recipients cc bcc subject body attachments date v m
      hv1 hv2 h
    obtain ⟨hd, -⟩ := mkMessage_ok_iff.mp h
    obtain ⟨-, -, -, -, -, hct, -, -⟩ := mkMessageData_ok hd
    rw [herr v hv1 hv2] at hct
    exact Except.noConfusion hct

/-- Witness for C9: the content value Texd is rejected with a message naming
it, and a concrete html construction takes the alternative path. -/
theorem claim9_witness :
    set_content "Texd".data = .error (.invalidContent "Texd".data) ∧
      containsSeg "Texd".data
        (EmailError.invalidContent "Texd".data).message = true ∧
      htmlMessage.message.multipartSubtype = "alternative".data := by
  have hbad := claim9_content_case.2.2.2.1 "Texd".data (by decide) (by decide)
  have hpath := claim9_content_case.2.2.1 emptyFs [] "a@b.cd".data
    (.fsome (.str "x@y.zw".data)) .fnone .fnone "s".data "b".data .fnone
    "D".data htmlMessage (by decide)
  exact ⟨hbad.1, hbad.2.1, hpath.2.1⟩

theorem connect_trace_head (srv : SmtpServer) (net : NetOracle) :
    ((srv.connect net).2.2).head?
      = some (SmtpEvent.openConn
          (if srv.ssl then ConnMethod.smtpSsl else ConnMethod.smtp)
          srv.port) := by
  simp only [SmtpServer.connect]
  split_ifs <;> simp

theorem connect_no_starttls (srv : SmtpServer) (net : NetOracle)
    (h : srv.tls = false) :
    SmtpEvent.starttls ∉ (srv.connect net).2.2 := by
  simp only [SmtpServer.connect]
  split_ifs <;> simp_all

theorem connect_ok_starttls (srv : SmtpServer) (net : NetOracle)
    (htls : srv.tls = true) (hok : (srv.connect net).1 = .ok ()) :
    SmtpEvent.starttls ∈ (srv.connect net).2.2 := by
  simp only [SmtpServer.connect] at hok ⊢
  split_ifs at hok ⊢ <;> simp_all

/-- C10: the one-shot sender builds its internal transport with the flag
defaults tls false and ssl true, the opposite of the transport's own
defaults tls true and ssl false; consequently a default one-shot session
opens with the SSL-from-start connection class and never issues STARTTLS,
while a default directly-constructed transport opens with the plain
connection class and, whenever its connect succeeds, has issued STARTTLS. -/
theorem claim10_easysender_defaults (addr : List Char)
    (username password : Option (List Char)) (port : Option Nat)
    (net : NetOracle) :
    (EasySender.makeFlagsDefault addr username password port).server.tls
        = false ∧
      (EasySender.makeFlagsDefault addr username password port).server.ssl
        = true ∧
      (SmtpServer.makeFlagsDefault addr username password port).tls = true ∧
      (SmtpServer.makeFlagsDefault addr username password port).ssl = false ∧
      (((EasySender.makeFlagsDefault addr username password
            port).server.connect net).2.2).head?
        = some (SmtpEvent.openConn ConnMethod.smtpSsl port) ∧
      SmtpEvent.starttls ∉
        ((EasySender.makeFlagsDefault addr username password
            port).server.connect net).2.2 ∧
      (((SmtpServer.makeFlagsDefault addr username password
            port).connect net).2.2).head?
        = some (SmtpEvent.openConn ConnMethod.smtp port) ∧
      (((SmtpServer.makeFlagsDefault addr username password
            port).connect net).1 = .ok () →
        SmtpEvent.starttls ∈
          ((SmtpServer.makeFlagsDefault addr username password
              port).connect net).2.2) := by
  refine ⟨rfl, rfl, rfl, rfl, ?_, ?_, ?_, ?_⟩
  · simpa using connect_trace_head
      (EasySender.makeFlagsDefault addr username password port).server net
  · exact connect_no_starttls _ net rfl
  · simpa using connect_trace_head
      (SmtpServer.makeFlagsDefault addr username password port) net
  · intro hok
    exact connect_ok_starttls _ net rfl hok

/-- Witness for C10: with an all-successful oracle, the default transport
session contains a STARTTLS call and the default one-shot session does
not. -/
theorem claim10_witness :
    SmtpEvent.starttls ∈
        ((SmtpServer.makeFlagsDefault "smtp.test.com".data none none
            none).connect allOkNet).2.2 ∧
      SmtpEvent.starttls ∉
        ((EasySender.makeFlagsDefault "smtp.test.com".data none none
            none).server.connect allOkNet).2.2 := by
  have h := claim10_easysender_defaults "smtp.test.com".data none none none
    allOkNet
  exact ⟨h.2.2.2.2.2.2.2 (by decide), h.2.2.2.2.2.1⟩

end Emaillib
